import Mathlib

/-!
Shallow embedding of `spotifydata.py` (Spotify-Yearly-Data-Creator):
a batch pipeline that loads JSON listening-history files, normalizes raw
records into canonical events, aggregates per-year totals, and reports
ranked top-N artist/track listings.

JSON numbers are modelled as integers (the fields the program consumes are
millisecond counts and the claims only involve integer payloads).
-/

namespace SpotifyData

/-- A decoded JSON value, as produced by `json.load`.  Objects are modelled
as association lists of string keys; as in Python's `json` module, a later
binding for the same key shadows an earlier one (see `dictLookup`). -/
inductive Json where
  | null
  | bool (b : Bool)
  | num (n : Int)
  | str (s : String)
  | arr (elems : List Json)
  | obj (members : List (String × Json))
deriving Repr

/-- A raw record: one decoded JSON object (Python `dict`). -/
abbrev RawRecord := List (String × Json)

/-- Python dict lookup `d[k]` (and membership `k in d`): the last binding of
a duplicated key wins, as in `json.load`'s object construction. -/
def dictLookup (d : RawRecord) (k : String) : Option Json :=
  d.foldl (fun acc p => if p.1 = k then some p.2 else acc) none

/-- Membership test of `d[k] in (None, "", "null")` used by `safe_get`:
true for JSON `null`, the empty string and the literal string `"null"`
(Python `==` between an int/bool and a string is always false). -/
def excludedVal : Json → Bool
  | .null => true
  | .str s => s == "" || s == "null"
  | _ => false

/-- `safe_get(d, keys)`: return the first candidate key whose value is
present and not in `(None, "", "null")`; otherwise `None`. -/
def safe_get (d : RawRecord) : List String → Option Json
  | [] => none
  | k :: ks =>
    match dictLookup d k with
    | some v => if excludedVal v then safe_get d ks else some v
    | none => safe_get d ks

/-- Python truthiness (`if track and artist:` etc.). -/
def truthy : Json → Bool
  | .null => false
  | .bool b => b
  | .num n => n != 0
  | .str s => s != ""
  | .arr l => !l.isEmpty
  | .obj l => !l.isEmpty

/-- Python `str(v)` for the scalar values the program actually formats.
Containers are given fixed placeholder renderings: no claim (and no
timestamp/duration/title field in the claims) carries a container, and the
placeholders parse as no datetime, matching Python where `str(list)` never
parses either. -/
def pyStr : Json → String
  | .null => "None"
  | .bool true => "True"
  | .bool false => "False"
  | .num n => toString n
  | .str s => s
  | .arr _ => "[...]"
  | .obj _ => "{...}"

/-- Python `str.strip()` on the character list: drop leading and trailing
whitespace. -/
def listTrim (cs : List Char) : List Char :=
  ((cs.dropWhile Char.isWhitespace).reverse.dropWhile Char.isWhitespace).reverse

/-- Python `s.strip()`. -/
def pyStrip (s : String) : String := String.mk (listTrim s.data)

/-- Numeric value of a decimal digit character. -/
def digitVal (c : Char) : Nat := c.toNat - 48

/-- Value of a list of decimal digit characters, most significant first. -/
def digitsVal (cs : List Char) : Nat := cs.foldl (fun a c => a * 10 + digitVal c) 0

/-- Python `int(s)` on a string: optional surrounding whitespace, optional
sign, then at least one decimal digit (digit-group underscores are not
modelled).  `none` models the raised `ValueError`. -/
def pyIntOfStr (s : String) : Option Int :=
  let core : List Char → Option Int := fun ds =>
    if ds ≠ [] ∧ ds.all Char.isDigit then some (digitsVal ds : Int) else none
  match listTrim s.data with
  | '+' :: ds => core ds
  | '-' :: ds => (core ds).map (fun n => -n)
  | ds => core ds

/-- Python `int(v)` on one JSON value; `none` models a raised exception. -/
def pyInt : Json → Option Int
  | .num n => some n
  | .str s => pyIntOfStr s
  | .bool b => some (if b then 1 else 0)
  | _ => none

/-! ### Datetime parsing (`parse_dt`) -/

/-- A parsed naive datetime (`datetime.datetime` without timezone
normalization; an ISO offset suffix is validated but does not change the
stored fields, matching `datetime.fromisoformat`). -/
structure DateTime where
  year : Nat
  month : Nat
  day : Nat
  hour : Nat
  minute : Nat
  second : Nat
deriving Repr, DecidableEq

def isLeapYear (y : Nat) : Bool := (y % 4 == 0 && y % 100 != 0) || y % 400 == 0

def daysInMonth (y m : Nat) : Nat :=
  if m == 2 then (if isLeapYear y then 29 else 28)
  else if m == 4 || m == 6 || m == 9 || m == 11 then 30
  else 31

/-- The validity checks performed by the `datetime` constructor. -/
def mkDT (y m d h mi s : Nat) : Option DateTime :=
  if 1 ≤ y ∧ y ≤ 9999 ∧ 1 ≤ m ∧ m ≤ 12 ∧ 1 ≤ d ∧ d ≤ daysInMonth y m
      ∧ h ≤ 23 ∧ mi ≤ 59 ∧ s ≤ 59 then
    some ⟨y, m, d, h, mi, s⟩
  else none

/-- The strict `YYYY-MM-DD` prefix required by `datetime.fromisoformat`. -/
def parseIsoDate : List Char → Option (Nat × Nat × Nat × List Char)
  | y1 :: y2 :: y3 :: y4 :: s1 :: m1 :: m2 :: s2 :: d1 :: d2 :: rest =>
    if [y1, y2, y3, y4, m1, m2, d1, d2].all Char.isDigit && s1 == '-' && s2 == '-' then
      some (digitsVal [y1, y2, y3, y4], digitsVal [m1, m2], digitsVal [d1, d2], rest)
    else none
  | _ => none

/-- Split the ISO time string at the first `+`/`-`, the start of a
timezone-offset suffix. -/
def splitTz (cs : List Char) : List Char × List Char :=
  match cs.findIdx? (fun c => c == '+' || c == '-') with
  | some i => (cs.take i, cs.drop i)
  | none => (cs, [])

/-- Fractional seconds: a dot followed by exactly 3 or 6 digits, as
`datetime.fromisoformat` requires. -/
def parseFrac : List Char → Option (List Char)
  | '.' :: rest =>
    let ds := rest.takeWhile Char.isDigit
    if ds.length == 3 || ds.length == 6 then some (rest.drop ds.length) else none
  | _ => none

/-- The `HH[:MM[:SS[.fff{fff}]]]` time body of `datetime.fromisoformat`. -/
def parseHMS (cs : List Char) : Option (Nat × Nat × Nat) :=
  match cs with
  | [h1, h2] =>
    if [h1, h2].all Char.isDigit then some (digitsVal [h1, h2], 0, 0) else none
  | [h1, h2, ':', m1, m2] =>
    if [h1, h2, m1, m2].all Char.isDigit then
      some (digitsVal [h1, h2], digitsVal [m1, m2], 0)
    else none
  | h1 :: h2 :: ':' :: m1 :: m2 :: ':' :: s1 :: s2 :: rest =>
    if [h1, h2, m1, m2, s1, s2].all Char.isDigit then
      match rest with
      | [] => some (digitsVal [h1, h2], digitsVal [m1, m2], digitsVal [s1, s2])
      | more =>
        match parseFrac more with
        | some [] => some (digitsVal [h1, h2], digitsVal [m1, m2], digitsVal [s1, s2])
        | _ => none
    else none
  | _ => none

/-- A `±HH:MM[:SS]` timezone-offset suffix (validated, then discarded). -/
def validTzOffset (cs : List Char) : Bool :=
  match cs with
  | [sg, h1, h2, ':', m1, m2] =>
    (sg == '+' || sg == '-') && [h1, h2, m1, m2].all Char.isDigit
      && digitsVal [h1, h2] ≤ 23 && digitsVal [m1, m2] ≤ 59
  | [sg, h1, h2, ':', m1, m2, ':', s1, s2] =>
    (sg == '+' || sg == '-') && [h1, h2, m1, m2, s1, s2].all Char.isDigit
      && digitsVal [h1, h2] ≤ 23 && digitsVal [m1, m2] ≤ 59 && digitsVal [s1, s2] ≤ 59
  | _ => false

/-- Model of `datetime.fromisoformat`: a strict `YYYY-MM-DD` date, then
optionally one separator character (any character) and a
`HH[:MM[:SS[.fff{fff}]]][±HH:MM[:SS]]` time. -/
def fromisoformat (s : String) : Option DateTime :=
  match parseIsoDate s.toList with
  | none => none
  | some (y, m, d, rest) =>
    match rest with
    | [] => mkDT y m d 0 0 0
    | _ :: timeChars =>
      let (tpart, tzpart) := splitTz timeChars
      match parseHMS tpart with
      | none => none
      | some (h, mi, sec) =>
        if tzpart.isEmpty then mkDT y m d h mi sec
        else if validTzOffset tzpart then mkDT y m d h mi sec
        else none

/-- `strptime` field `%Y`: exactly four digits. -/
def parseY4 : List Char → Option (Nat × List Char)
  | a :: b :: c :: d :: rest =>
    if [a, b, c, d].all Char.isDigit then some (digitsVal [a, b, c, d], rest) else none
  | _ => none

def charBetween (lo hi c : Char) : Bool := decide (lo ≤ c) && decide (c ≤ hi)

/-- `strptime` field `%m`: regex `1[0-2]|0[1-9]|[1-9]`. -/
def parseMonthF : List Char → Option (Nat × List Char)
  | c1 :: c2 :: rest =>
    if c1 == '1' && charBetween '0' '2' c2 then some (digitsVal [c1, c2], rest)
    else if c1 == '0' && charBetween '1' '9' c2 then some (digitsVal [c2], rest)
    else if charBetween '1' '9' c1 then some (digitsVal [c1], c2 :: rest)
    else none
  | [c1] => if charBetween '1' '9' c1 then some (digitsVal [c1], []) else none
  | [] => none

/-- `strptime` field `%d`: regex `3[01]|[12][0-9]|0[1-9]|[1-9]`. -/
def parseDayF : List Char → Option (Nat × List Char)
  | c1 :: c2 :: rest =>
    if c1 == '3' && (c2 == '0' || c2 == '1') then some (digitsVal [c1, c2], rest)
    else if (c1 == '1' || c1 == '2') && c2.isDigit then some (digitsVal [c1, c2], rest)
    else if c1 == '0' && charBetween '1' '9' c2 then some (digitsVal [c2], rest)
    else if charBetween '1' '9' c1 then some (digitsVal [c1], c2 :: rest)
    else none
  | [c1] => if charBetween '1' '9' c1 then some (digitsVal [c1], []) else none
  | [] => none

/-- `strptime` field `%H`: regex `2[0-3]|[0-1][0-9]|[0-9]`. -/
def parseHourF : List Char → Option (Nat × List Char)
  | c1 :: c2 :: rest =>
    if c1 == '2' && charBetween '0' '3' c2 then some (digitsVal [c1, c2], rest)
    else if (c1 == '0' || c1 == '1') && c2.isDigit then some (digitsVal [c1, c2], rest)
    else if c1.isDigit then some (digitsVal [c1], c2 :: rest)
    else none
  | [c1] => if c1.isDigit then some (digitsVal [c1], []) else none
  | [] => none

/-- `strptime` field `%M`: regex `[0-5][0-9]|[0-9]`. -/
def parseMinF : List Char → Option (Nat × List Char)
  | c1 :: c2 :: rest =>
    if charBetween '0' '5' c1 && c2.isDigit then some (digitsVal [c1, c2], rest)
    else if c1.isDigit then some (digitsVal [c1], c2 :: rest)
    else none
  | [c1] => if c1.isDigit then some (digitsVal [c1], []) else none
  | [] => none

/-- `strptime` field `%S`: regex `6[01]|[0-5][0-9]|[0-9]`. -/
def parseSecF : List Char → Option (Nat × List Char)
  | c1 :: c2 :: rest =>
    if c1 == '6' && (c2 == '0' || c2 == '1') then some (digitsVal [c1, c2], rest)
    else if charBetween '0' '5' c1 && c2.isDigit then some (digitsVal [c1, c2], rest)
    else if c1.isDigit then some (digitsVal [c1], c2 :: rest)
    else none
  | [c1] => if c1.isDigit then some (digitsVal [c1], []) else none
  | [] => none

/-- `datetime.strptime(ts, "%Y-%m-%d %H:%M")`. -/
def strptime_f1 (s : String) : Option DateTime :=
  match parseY4 s.toList with
  | none => none
  | some (y, r1) =>
    match r1 with
    | '-' :: r2 =>
      match parseMonthF r2 with
      | none => none
      | some (m, r3) =>
        match r3 with
        | '-' :: r4 =>
          match parseDayF r4 with
          | none => none
          | some (d, r5) =>
            match r5 with
            | ' ' :: r6 =>
              match parseHourF r6 with
              | none => none
              | some (h, r7) =>
                match r7 with
                | ':' :: r8 =>
                  match parseMinF r8 with
                  | some (mi, []) => mkDT y m d h mi 0
                  | _ => none
                | _ => none
            | _ => none
        | _ => none
    | _ => none

/-- `datetime.strptime(ts, "%Y-%m-%dT%H:%M:%S")`. -/
def strptime_f2 (s : String) : Option DateTime :=
  match parseY4 s.toList with
  | none => none
  | some (y, r1) =>
    match r1 with
    | '-' :: r2 =>
      match parseMonthF r2 with
      | none => none
      | some (m, r3) =>
        match r3 with
        | '-' :: r4 =>
          match parseDayF r4 with
          | none => none
          | some (d, r5) =>
            match r5 with
            | 'T' :: r6 =>
              match parseHourF r6 with
              | none => none
              | some (h, r7) =>
                match r7 with
                | ':' :: r8 =>
                  match parseMinF r8 with
                  | some (mi, ':' :: r9) =>
                    match parseSecF r9 with
                    | some (sec, []) => mkDT y m d h mi sec
                    | _ => none
                  | _ => none
                | _ => none
            | _ => none
        | _ => none
    | _ => none

/-- `ts[:-1]` when `ts.endswith("Z")`. -/
def stripZ (s : String) : String :=
  match s.data.getLast? with
  | some 'Z' => String.mk s.data.dropLast
  | _ => s

/-- `parse_dt(ts)`: stringify and strip the value, drop a trailing `Z`,
then try `fromisoformat` followed by the two literal `strptime` formats. -/
def parse_dt (v : Json) : Option DateTime :=
  let ts := stripZ (pyStrip (pyStr v))
  match fromisoformat ts with
  | some dt => some dt
  | none =>
    match strptime_f1 ts with
    | some dt => some dt
    | none => strptime_f2 ts

/-! ### Record normalization (`normalize_record`) -/

/-- Module-level configuration constants of `spotifydata.py`. -/
def TOP_N : Nat := 10

def SAVE_CSV : Bool := true

def INCLUDE_PODCASTS_AUDIOBOOKS : Bool := false

/-- The normalized form `(year, item_type, group_key, item_key, duration_ms)`
returned by `normalize_record`. -/
structure CanonicalEvent where
  year : Nat
  item_type : String
  group_key : String
  item_key : String
  duration_ms : Int
deriving Repr, DecidableEq

/-- Timestamp candidate fields, in probe order. -/
def tsKeys : List String := ["ts", "endTime", "timestamp", "played_at"]

/-- Duration candidate fields, in probe order. -/
def msKeys : List String := ["ms_played", "msPlayed", "play_duration_ms"]

/-- Track-title candidate fields, in probe order. -/
def trackKeys : List String :=
  ["master_metadata_track_name", "trackName", "track", "track_name", "name"]

/-- Artist-name candidate fields, in probe order. -/
def artistKeys : List String :=
  ["master_metadata_album_artist_name", "artistName", "artist", "artist_name",
   "master_metadata_artist_name"]

/-- `ms = int(ms) if ms is not None else 0`, with a raised coercion
exception caught and replaced by `0`. -/
def resolveMs (r : RawRecord) : Int :=
  match safe_get r msKeys with
  | none => 0
  | some v =>
    match pyInt v with
    | some n => n
    | none => 0

/-- The `if track and artist:` song branch of `normalize_record`. -/
def songEvent (r : RawRecord) (year : Nat) (ms : Int) : Option CanonicalEvent :=
  match safe_get r trackKeys, safe_get r artistKeys with
  | some track, some artist =>
    if truthy track && truthy artist then
      some ⟨year, "song", pyStrip (pyStr artist),
            pyStrip (pyStr artist ++ " - " ++ pyStr track), ms⟩
    else none
  | _, _ => none

/-- The `if ep and show:` podcast branch of `normalize_record`. -/
def podcastEvent (r : RawRecord) (year : Nat) (ms : Int) : Option CanonicalEvent :=
  match safe_get r ["episode_name"], safe_get r ["episode_show_name"] with
  | some ep, some sh =>
    if truthy ep && truthy sh then
      some ⟨year, "podcast", pyStrip (pyStr sh),
            pyStrip (pyStr sh ++ " - " ++ pyStr ep), ms⟩
    else none
  | _, _ => none

/-- The `if ab and ch:` audiobook branch of `normalize_record`. -/
def audiobookEvent (r : RawRecord) (year : Nat) (ms : Int) : Option CanonicalEvent :=
  match safe_get r ["audiobook_title"], safe_get r ["audiobook_chapter_title"] with
  | some ab, some ch =>
    if truthy ab && truthy ch then
      some ⟨year, "audiobook", pyStrip (pyStr ab),
            pyStrip (pyStr ab ++ " - " ++ pyStr ch), ms⟩
    else none
  | _, _ => none

/-- The `if INCLUDE_PODCASTS_AUDIOBOOKS:` block: podcast branch first,
then audiobook branch. -/
def nonMusicEvent (flag : Bool) (r : RawRecord) (year : Nat) (ms : Int) :
    Option CanonicalEvent :=
  if flag then
    match podcastEvent r year ms with
    | some e => some e
    | none => audiobookEvent r year ms
  else none

/-- `normalize_record(r)` with the non-music configuration flag explicit. -/
def normalize_record_cfg (flag : Bool) (r : RawRecord) : Option CanonicalEvent :=
  match safe_get r tsKeys with
  | none => none
  | some tsv =>
    match parse_dt tsv with
    | none => none
    | some dt =>
      let ms := resolveMs r
      if ms ≤ 0 then none
      else
        match songEvent r dt.year ms with
        | some e => some e
        | none => nonMusicEvent flag r dt.year ms

/-- `normalize_record(r)` as shipped (global flag `False`). -/
def normalize_record (r : RawRecord) : Option CanonicalEvent :=
  normalize_record_cfg INCLUDE_PODCASTS_AUDIOBOOKS r

/-! ### Loader (`load_streaming_history`) -/

def DATA_FOLDER : String := "./spotify_data"

/-- One candidate `*.json` file under the input root: its path and its
decode result (`none` models a `json.load` failure). -/
structure FSFile where
  path : String
  content : Option Json
deriving Repr

/-- The decode result of the (first) file at path `p`. -/
def fileContent (folder : List FSFile) (p : String) : Option Json :=
  match folder.find? (fun f => f.path == p) with
  | some f => f.content
  | none => none

/-- `sorted(set(glob.glob(...)))`: the distinct candidate paths in
lexicographically sorted order. -/
def sortedPaths (folder : List FSFile) : List String :=
  ((folder.map FSFile.path).dedup).mergeSort (fun a b => decide (a ≤ b))

/-- `isinstance(r, dict)` filter for sequence elements. -/
def asObj : Json → Option RawRecord
  | .obj m => some m
  | _ => none

/-- Records contributed by one file: a decode failure contributes nothing;
an object wrapping a list under `"history"` is unwrapped; a list payload
contributes its object elements; anything else contributes nothing. -/
def extractRecords : Option Json → List RawRecord
  | none => []
  | some data =>
    let d2 := match data with
      | .obj members =>
        match dictLookup members "history" with
        | some (.arr l) => Json.arr l
        | _ => Json.obj members
      | d => d
    match d2 with
    | .arr l => l.filterMap asObj
    | _ => []

/-- `load_streaming_history(folder)`: error when no candidate file exists,
else the concatenation of every file's records in sorted path order. -/
def load_streaming_history (folder : List FSFile) :
    Except String (List RawRecord) :=
  let paths := sortedPaths folder
  if paths.isEmpty then
    .error ("No .json files found in " ++ DATA_FOLDER ++ ".")
  else
    .ok (List.flatten (paths.map (fun p => extractRecords (fileContent folder p))))

/-! ### Aggregator and reporter (`main`) -/

/-- A `collections.Counter` in insertion order: `+=` updates an existing
key in place and appends a fresh key at the end. -/
abbrev Counter := List (String × Int)

/-- `c[k] += v` on a counter-like association list. -/
def bumpA {κ : Type} [DecidableEq κ] (m : List (κ × Int)) (k : κ) (v : Int) :
    List (κ × Int) :=
  match m with
  | [] => [(k, v)]
  | p :: rest => if p.1 = k then (p.1, p.2 + v) :: rest else p :: bumpA rest k v

/-- `dd[y][k] += v` on a `defaultdict(Counter)` in insertion order. -/
def bumpYearMap (m : List (Nat × Counter)) (y : Nat) (k : String) (v : Int) :
    List (Nat × Counter) :=
  match m with
  | [] => [(y, bumpA [] k v)]
  | p :: rest =>
    if p.1 = y then (p.1, bumpA p.2 k v) :: rest else p :: bumpYearMap rest y k v

/-- Association-list read with a default (`Counter`/`defaultdict` lookup
semantics: a missing key reads as the default). -/
def getA {κ : Type} [DecidableEq κ] {β : Type} (dflt : β) :
    List (κ × β) → κ → β
  | [], _ => dflt
  | p :: rest, k => if p.1 = k then p.2 else getA dflt rest k

/-- The four accumulators of `main`'s aggregation loop. -/
structure AggState where
  artist_ms : List (Nat × Counter)
  track_ms : List (Nat × Counter)
  year_total_ms : List (Nat × Int)
  year_streams : List (Nat × Int)
deriving Repr, DecidableEq

def emptyAgg : AggState := ⟨[], [], [], []⟩

/-- One iteration of the aggregation loop body on a normalized event. -/
def aggStep (st : AggState) (e : CanonicalEvent) : AggState :=
  { artist_ms := bumpYearMap st.artist_ms e.year e.group_key e.duration_ms
    track_ms := bumpYearMap st.track_ms e.year e.item_key e.duration_ms
    year_total_ms := bumpA st.year_total_ms e.year e.duration_ms
    year_streams := bumpA st.year_streams e.year 1 }

/-- The aggregation loop over a sequence of canonical events. -/
def aggregate (es : List CanonicalEvent) : AggState := es.foldl aggStep emptyAgg

/-- `counter.most_common()`: entries sorted by count descending; the sort
is stable, so ties keep insertion order. -/
def most_common (m : Counter) : Counter :=
  m.mergeSort (fun a b => decide (b.2 ≤ a.2))

/-- `counter.most_common(n)`. -/
def most_common_n (m : Counter) (n : Nat) : Counter := (most_common m).take n

/-- `sorted(year_total_ms.keys())`. -/
def yearsOf (st : AggState) : List Nat :=
  (st.year_total_ms.map Prod.fst).mergeSort (fun a b => decide (a ≤ b))

/-- The per-year block that `main` renders. -/
structure YearReport where
  year : Nat
  total_ms : Int
  stream_count : Int
  topArtists : Counter
  topSongs : Counter
deriving Repr, DecidableEq

def mkYearReport (st : AggState) (y : Nat) : YearReport :=
  { year := y
    total_ms := getA 0 st.year_total_ms y
    stream_count := getA 0 st.year_streams y
    topArtists := most_common_n (getA [] st.artist_ms y) TOP_N
    topSongs := most_common_n (getA [] st.track_ms y) TOP_N }

/-- The CSV paths `main` writes when `SAVE_CSV` is set. -/
def csvFiles (ys : List Nat) : List String :=
  List.flatten (ys.map (fun y =>
    ["out/" ++ toString y ++ "_top_artists.csv",
     "out/" ++ toString y ++ "_top_songs.csv"]))
    ++ ["out/year_totals.csv"]

/-- The observable outcome of `main`: the fatal no-input error, the
graceful no-usable-records return, or a full report. -/
inductive MainOutcome where
  | noInput (msg : String)
  | noUsable
  | report (perYear : List YearReport) (files : List String)
deriving Repr, DecidableEq

/-- `main()` as a function of the input folder contents. -/
def main_model (folder : List FSFile) : MainOutcome :=
  match load_streaming_history folder with
  | .error msg => .noInput msg
  | .ok records =>
    let events := records.filterMap normalize_record
    let st := aggregate events
    if events.length = 0 then .noUsable
    else
      let ys := yearsOf st
      .report (ys.map (mkYearReport st)) (if SAVE_CSV then csvFiles ys else [])

/-! ### Helper lemmas: normalizer -/

theorem safe_get_hit {d : RawRecord} {k : String} {ks : List String} {v : Json}
    (h : dictLookup d k = some v) (hx : excludedVal v = false) :
    safe_get d (k :: ks) = some v := by
  simp [safe_get, h, hx]

theorem safe_get_skip {d : RawRecord} {k : String} {ks : List String} {v : Json}
    (h : dictLookup d k = some v) (hx : excludedVal v = true) :
    safe_get d (k :: ks) = safe_get d ks := by
  simp [safe_get, h, hx]

theorem songEvent_some {r : RawRecord} {y : Nat} {ms : Int} {e : CanonicalEvent}
    (h : songEvent r y ms = some e) :
    e.year = y ∧ e.duration_ms = ms ∧ e.item_type = "song" := by
  unfold songEvent at h
  cases h1 : safe_get r trackKeys <;> rw [h1] at h <;>
    cases h2 : safe_get r artistKeys <;> rw [h2] at h
  case none.none => exact Option.noConfusion h
  case none.some => exact Option.noConfusion h
  case some.none => exact Option.noConfusion h
  case some.some =>
    dsimp only at h
    split at h
    · cases h; exact ⟨rfl, rfl, rfl⟩
    · exact Option.noConfusion h

theorem normalize_none_of_ts_none {r : RawRecord} (h : safe_get r tsKeys = none) :
    normalize_record r = none := by
  simp [normalize_record, normalize_record_cfg, h]

theorem normalize_none_of_parse_none {r : RawRecord} {v : Json}
    (h1 : safe_get r tsKeys = some v) (h2 : parse_dt v = none) :
    normalize_record r = none := by
  simp [normalize_record, normalize_record_cfg, h1, h2]

theorem normalize_none_of_ms_nonpos {r : RawRecord} (h : resolveMs r ≤ 0) :
    normalize_record r = none := by
  cases h1 : safe_get r tsKeys with
  | none => exact normalize_none_of_ts_none h1
  | some v =>
    cases h2 : parse_dt v with
    | none => exact normalize_none_of_parse_none h1 h2
    | some dt =>
      simp [normalize_record, normalize_record_cfg, h1, h2, h]

/-- In the shipped configuration (`INCLUDE_PODCASTS_AUDIOBOOKS = False`)
a record that passes the timestamp and duration gates yields exactly the
song branch's result. -/
theorem normalize_eq_songEvent {r : RawRecord} {v : Json} {dt : DateTime}
    (h1 : safe_get r tsKeys = some v) (h2 : parse_dt v = some dt)
    (h3 : ¬ resolveMs r ≤ 0) :
    normalize_record r = songEvent r dt.year (resolveMs r) := by
  simp only [normalize_record, normalize_record_cfg, h1, h2, h3, if_false,
    INCLUDE_PODCASTS_AUDIOBOOKS, nonMusicEvent]
  cases songEvent r dt.year (resolveMs r) <;> simp

theorem normalize_some_facts {r : RawRecord} {e : CanonicalEvent}
    (h : normalize_record r = some e) :
    ((safe_get r tsKeys).bind parse_dt).map DateTime.year = some e.year
    ∧ e.duration_ms = resolveMs r ∧ 0 < e.duration_ms ∧ e.item_type = "song" := by
  cases h1 : safe_get r tsKeys with
  | none => rw [normalize_none_of_ts_none h1] at h; exact Option.noConfusion h
  | some v =>
    cases h2 : parse_dt v with
    | none => rw [normalize_none_of_parse_none h1 h2] at h; exact Option.noConfusion h
    | some dt =>
      by_cases h3 : resolveMs r ≤ 0
      · rw [normalize_none_of_ms_nonpos h3] at h; exact Option.noConfusion h
      · rw [normalize_eq_songEvent h1 h2 h3] at h
        obtain ⟨hy, hm, hi⟩ := songEvent_some h
        exact ⟨by simp [h1, h2, hy], hm, by omega, hi⟩

/-! ### Claim theorems: normalizer -/

/-- C2: the raw record `{ts: "2023-05-01T10:00:00Z", ms_played: 180000,
trackName: "Song A", artistName: "Artist X"}` normalizes to the canonical
tuple `(2023, "song", "Artist X", "Artist X - Song A", 180000)`. -/
theorem C2_normalizer_roundtrip :
    normalize_record
      [("ts", .str "2023-05-01T10:00:00Z"), ("ms_played", .num 180000),
       ("trackName", .str "Song A"), ("artistName", .str "Artist X")]
      = some ⟨2023, "song", "Artist X", "Artist X - Song A", 180000⟩ := by
  decide

/-- C5: timestamp resolution probes the ordered candidates
`ts, endTime, timestamp, played_at` and takes the first present
non-excluded value; a missing or unparsable timestamp makes
`normalize_record` return absent; a trailing `Z` is stripped before
parsing, strict ISO-8601 parsing is tried first and the literal formats
`YYYY-MM-DD HH:MM` and `YYYY-MM-DDTHH:MM:SS` after it; `ts="not-a-date"`
is discarded; and every produced event's year is the parsed timestamp's
year, so no event has an unresolved year. -/
theorem C5_timestamp_resolution :
    (∀ r : RawRecord, safe_get r tsKeys = none → normalize_record r = none)
    ∧ (∀ (r : RawRecord) (v : Json), safe_get r tsKeys = some v →
        parse_dt v = none → normalize_record r = none)
    ∧ (∀ (d : RawRecord) (k : String) (ks : List String) (v : Json),
        dictLookup d k = some v → excludedVal v = false →
        safe_get d (k :: ks) = some v)
    ∧ parse_dt (.str "not-a-date") = none
    ∧ parse_dt (.str "2023-05-01T10:00:00Z") = some ⟨2023, 5, 1, 10, 0, 0⟩
    ∧ parse_dt (.str "2023-5-1 3:4") = some ⟨2023, 5, 1, 3, 4, 0⟩
    ∧ parse_dt (.str "2023-5-01T10:00:09") = some ⟨2023, 5, 1, 10, 0, 9⟩
    ∧ normalize_record
        [("endTime", .str "2022-01-01 00:00"), ("ts", .str "2023-05-01T10:00:00Z"),
         ("ms_played", .num 1000), ("trackName", .str "T"), ("artistName", .str "A")]
        = some ⟨2023, "song", "A", "A - T", 1000⟩
    ∧ (∀ (r : RawRecord) (e : CanonicalEvent), normalize_record r = some e →
        ((safe_get r tsKeys).bind parse_dt).map DateTime.year = some e.year) := by
  refine ⟨fun r h => normalize_none_of_ts_none h,
    fun r v h1 h2 => normalize_none_of_parse_none h1 h2,
    fun d k ks v h hx => safe_get_hit h hx,
    by decide, by decide, by decide, by decide, by decide,
    fun r e h => (normalize_some_facts h).1⟩

/-- C5 witness: the theorem's conditional conjuncts instantiated at
concrete records. -/
theorem C5_timestamp_resolution_witness :
    normalize_record [("x", .num 1)] = none
    ∧ normalize_record [("ts", .str "not-a-date"), ("ms_played", .num 5)] = none
    ∧ safe_get [("ts", .str "ok")] ("ts" :: []) = some (.str "ok")
    ∧ ((safe_get [("ts", .str "2023-05-01T10:00:00Z"), ("ms_played", .num 180000),
          ("trackName", .str "Song A"), ("artistName", .str "Artist X")] tsKeys).bind
        parse_dt).map DateTime.year = some 2023 :=
  ⟨C5_timestamp_resolution.1 _ rfl,
   C5_timestamp_resolution.2.1 _ (.str "not-a-date") rfl (by decide),
   C5_timestamp_resolution.2.2.1 _ "ts" [] (.str "ok") rfl (by decide),
   C5_timestamp_resolution.2.2.2.2.2.2.2.2 _
     ⟨2023, "song", "Artist X", "Artist X - Song A", 180000⟩ (by decide)⟩

/-- C6: the play duration is `safe_get` over `ms_played, msPlayed,
play_duration_ms` coerced with `int(...)` and defaulting to `0`; a
non-positive resolved duration makes `normalize_record` return absent
regardless of the other fields, and every produced event carries the
(positive) resolved duration. -/
theorem C6_duration_resolution :
    (∀ r : RawRecord, resolveMs r ≤ 0 → normalize_record r = none)
    ∧ (∀ (r : RawRecord) (e : CanonicalEvent), normalize_record r = some e →
        e.duration_ms = resolveMs r ∧ 0 < e.duration_ms)
    ∧ normalize_record
        [("ts", .str "2023-05-01T10:00:00Z"), ("ms_played", .num 0),
         ("trackName", .str "T"), ("artistName", .str "A")] = none
    ∧ normalize_record
        [("ts", .str "2023-05-01T10:00:00Z"),
         ("trackName", .str "T"), ("artistName", .str "A")] = none
    ∧ normalize_record
        [("ts", .str "2023-05-01T10:00:00Z"), ("ms_played", .str "abc"),
         ("trackName", .str "T"), ("artistName", .str "A")] = none
    ∧ resolveMs [("msPlayed", .num 7), ("ms_played", .num 5)] = 5 := by
  refine ⟨fun r h => normalize_none_of_ms_nonpos h,
    fun r e h => ⟨(normalize_some_facts h).2.1, (normalize_some_facts h).2.2.1⟩,
    by decide, by decide, by decide, by decide⟩

/-- C6 witness: the theorem's conditional conjuncts instantiated at
concrete records. -/
theorem C6_duration_resolution_witness :
    normalize_record [("ts", .str "2023-05-01T10:00:00Z"), ("ms_played", .num 0),
      ("trackName", .str "T"), ("artistName", .str "A")] = none
    ∧ ((180000 : Int) = resolveMs
          [("ts", .str "2023-05-01T10:00:00Z"), ("ms_played", .num 180000),
           ("trackName", .str "Song A"), ("artistName", .str "Artist X")]
        ∧ (0 : Int) < 180000) :=
  ⟨C6_duration_resolution.1 _ (by decide),
   C6_duration_resolution.2.1 _
     ⟨2023, "song", "Artist X", "Artist X - Song A", 180000⟩ (by decide)⟩

/-- C9: a candidate field holding the literal string `"null"` is treated
as absent by every `safe_get` probe — exactly like JSON `null` and the
empty string — and the probe falls through to the next candidate; a
record whose only timestamp candidate holds `"null"` is discarded, while
a later valid candidate is still found. -/
theorem C9_null_string_probes :
    (∀ (d : RawRecord) (k : String) (ks : List String),
      dictLookup d k = some (.str "null") → safe_get d (k :: ks) = safe_get d ks)
    ∧ (∀ (d : RawRecord) (k : String) (ks : List String),
      dictLookup d k = some (.str "") → safe_get d (k :: ks) = safe_get d ks)
    ∧ (∀ (d : RawRecord) (k : String) (ks : List String),
      dictLookup d k = some .null → safe_get d (k :: ks) = safe_get d ks)
    ∧ normalize_record [("ts", .str "null")] = none
    ∧ normalize_record
        [("ts", .str "null"), ("endTime", .str "2023-05-01 10:00"),
         ("ms_played", .num 5), ("trackName", .str "T"), ("artistName", .str "A")]
        = some ⟨2023, "song", "A", "A - T", 5⟩ := by
  refine ⟨fun d k ks h => safe_get_skip h (by decide),
    fun d k ks h => safe_get_skip h (by decide),
    fun d k ks h => safe_get_skip h (by decide),
    by decide, by decide⟩

/-- C9 witness: the fall-through conjuncts instantiated at a concrete
record whose probed fields hold `"null"`, `""` and `null`. -/
theorem C9_null_string_probes_witness :
    safe_get [("ts", .str "null"), ("endTime", .str "e")] ("ts" :: ["endTime"])
      = safe_get [("ts", .str "null"), ("endTime", .str "e")] ["endTime"]
    ∧ safe_get [("a", .str "")] ("a" :: []) = safe_get [("a", .str "")] []
    ∧ safe_get [("b", .null)] ("b" :: []) = safe_get [("b", .null)] [] :=
  ⟨C9_null_string_probes.1 _ "ts" ["endTime"] rfl,
   C9_null_string_probes.2.1 _ "a" [] rfl,
   C9_null_string_probes.2.2.1 _ "b" [] rfl⟩

/-! ### Helper lemmas: aggregation -/

/-- Total duration recorded in a list of events. -/
def sumMs (es : List CanonicalEvent) : Int := (es.map CanonicalEvent.duration_ms).sum

/-- Sum of the counts of a counter-like association list. -/
def sumVals {κ : Type} (m : List (κ × Int)) : Int := (m.map Prod.snd).sum

theorem sumVals_nil {κ : Type} : sumVals ([] : List (κ × Int)) = 0 := rfl

theorem getA_bumpA {κ : Type} [DecidableEq κ] (m : List (κ × Int)) (k k' : κ)
    (v : Int) :
    getA 0 (bumpA m k v) k' = getA 0 m k' + (if k' = k then v else 0) := by
  induction m with
  | nil =>
    simp only [bumpA, getA]
    by_cases h : k' = k
    · subst h; simp
    · rw [if_neg (fun hh => h hh.symm), if_neg h]; omega
  | cons p rest ih =>
    simp only [bumpA]
    by_cases hp : p.1 = k
    · rw [if_pos hp]
      simp only [getA]
      by_cases h2 : p.1 = k'
      · rw [if_pos h2, if_pos h2, if_pos (h2 ▸ hp ▸ rfl : k' = k)]
      · rw [if_neg h2, if_neg h2,
          if_neg (fun hh : k' = k => h2 (hp.trans hh.symm))]
        omega
    · rw [if_neg hp]
      simp only [getA]
      by_cases h2 : p.1 = k'
      · rw [if_pos h2, if_pos h2,
          if_neg (fun hh : k' = k => hp (h2.trans hh))]
        omega
      · rw [if_neg h2, if_neg h2, ih]

theorem mem_keys_bumpA {κ : Type} [DecidableEq κ] (m : List (κ × Int)) (k k' : κ)
    (v : Int) :
    k' ∈ (bumpA m k v).map Prod.fst ↔ k' ∈ m.map Prod.fst ∨ k' = k := by
  induction m with
  | nil => simp [bumpA]
  | cons p rest ih =>
    simp only [bumpA]
    by_cases hp : p.1 = k
    · rw [if_pos hp]
      subst hp
      simp
      tauto
    · rw [if_neg hp]
      simp [ih]
      tauto

theorem sumVals_bumpA {κ : Type} [DecidableEq κ] (m : List (κ × Int)) (k : κ)
    (v : Int) :
    sumVals (bumpA m k v) = sumVals m + v := by
  induction m with
  | nil => simp [bumpA, sumVals]
  | cons p rest ih =>
    simp only [bumpA]
    by_cases hp : p.1 = k
    · rw [if_pos hp]
      simp only [sumVals, List.map_cons, List.sum_cons] at *
      omega
    · rw [if_neg hp]
      simp only [sumVals, List.map_cons, List.sum_cons] at *
      omega

theorem getA_bumpYearMap (m : List (Nat × Counter)) (y y' : Nat) (k : String)
    (v : Int) :
    getA [] (bumpYearMap m y k v) y'
      = if y' = y then bumpA (getA [] m y) k v else getA [] m y' := by
  induction m with
  | nil =>
    simp only [bumpYearMap, getA]
    by_cases h : y' = y
    · subst h; simp
    · rw [if_neg (fun hh => h hh.symm), if_neg h]
  | cons p rest ih =>
    simp only [bumpYearMap]
    by_cases hp : p.1 = y
    · rw [if_pos hp]
      simp only [getA]
      by_cases h2 : y' = y
      · subst h2
        simp [hp]
      · have hne : ¬ p.1 = y' := fun hh => h2 (hh.symm.trans hp)
        simp [h2, hne]
    · rw [if_neg hp]
      simp only [getA, ih]
      by_cases h2 : p.1 = y'
      · have hne : ¬ y' = y := fun hh => hp (h2.trans hh)
        simp [h2, hne]
      · by_cases h3 : y' = y <;> simp [h2, h3, hp]

theorem mem_keys_bumpYearMap (m : List (Nat × Counter)) (y y' : Nat) (k : String)
    (v : Int) :
    y' ∈ (bumpYearMap m y k v).map Prod.fst ↔ y' ∈ m.map Prod.fst ∨ y' = y := by
  induction m with
  | nil => simp [bumpYearMap]
  | cons p rest ih =>
    simp only [bumpYearMap]
    by_cases hp : p.1 = y
    · rw [if_pos hp]
      subst hp
      simp
      tauto
    · rw [if_neg hp]
      simp [ih]
      tauto

theorem total_foldl (es : List CanonicalEvent) (st : AggState) (y : Nat) :
    getA 0 (es.foldl aggStep st).year_total_ms y
      = getA 0 st.year_total_ms y + sumMs (es.filter (fun e => e.year == y)) := by
  induction es generalizing st with
  | nil => simp [sumMs]
  | cons e rest ih =>
    rw [List.foldl_cons, ih, List.filter_cons]
    show getA 0 (bumpA st.year_total_ms e.year e.duration_ms) y + _ = _
    rw [getA_bumpA]
    by_cases h : e.year = y
    · subst h
      simp only [if_pos rfl, beq_self_eq_true, if_true, sumMs, List.map_cons,
        List.sum_cons]
      omega
    · have h1 : ¬ y = e.year := fun hh => h hh.symm
      have h2 : (e.year == y) = false := by simpa using h
      simp only [if_neg h1, h2, Bool.false_eq_true, if_false]
      omega

theorem streams_foldl (es : List CanonicalEvent) (st : AggState) (y : Nat) :
    getA 0 (es.foldl aggStep st).year_streams y
      = getA 0 st.year_streams y + ((es.filter (fun e => e.year == y)).length : Int) := by
  induction es generalizing st with
  | nil => simp
  | cons e rest ih =>
    rw [List.foldl_cons, ih, List.filter_cons]
    show getA 0 (bumpA st.year_streams e.year 1) y + _ = _
    rw [getA_bumpA]
    by_cases h : e.year = y
    · subst h
      simp only [if_pos rfl, beq_self_eq_true, if_true, List.length_cons]
      push_cast
      omega
    · have h1 : ¬ y = e.year := fun hh => h hh.symm
      have h2 : (e.year == y) = false := by simpa using h
      simp only [if_neg h1, h2, Bool.false_eq_true, if_false]
      omega

theorem artistSum_foldl (es : List CanonicalEvent) (st : AggState) (y : Nat) :
    sumVals (getA [] (es.foldl aggStep st).artist_ms y)
      = sumVals (getA [] st.artist_ms y) + sumMs (es.filter (fun e => e.year == y)) := by
  induction es generalizing st with
  | nil => simp [sumMs]
  | cons e rest ih =>
    rw [List.foldl_cons, ih, List.filter_cons]
    show sumVals (getA [] (bumpYearMap st.artist_ms e.year e.group_key e.duration_ms) y) + _ = _
    rw [getA_bumpYearMap]
    by_cases h : e.year = y
    · subst h
      simp only [if_pos rfl, beq_self_eq_true, if_true, sumVals_bumpA, sumMs,
        List.map_cons, List.sum_cons]
      omega
    · have h1 : ¬ y = e.year := fun hh => h hh.symm
      have h2 : (e.year == y) = false := by simpa using h
      simp only [if_neg h1, h2, Bool.false_eq_true, if_false]

theorem trackSum_foldl (es : List CanonicalEvent) (st : AggState) (y : Nat) :
    sumVals (getA [] (es.foldl aggStep st).track_ms y)
      = sumVals (getA [] st.track_ms y) + sumMs (es.filter (fun e => e.year == y)) := by
  induction es generalizing st with
  | nil => simp [sumMs]
  | cons e rest ih =>
    rw [List.foldl_cons, ih, List.filter_cons]
    show sumVals (getA [] (bumpYearMap st.track_ms e.year e.item_key e.duration_ms) y) + _ = _
    rw [getA_bumpYearMap]
    by_cases h : e.year = y
    · subst h
      simp only [if_pos rfl, beq_self_eq_true, if_true, sumVals_bumpA, sumMs,
        List.map_cons, List.sum_cons]
      omega
    · have h1 : ¬ y = e.year := fun hh => h hh.symm
      have h2 : (e.year == y) = false := by simpa using h
      simp only [if_neg h1, h2, Bool.false_eq_true, if_false]

theorem year_mem_foldl (es : List CanonicalEvent) (st : AggState) (y : Nat) :
    y ∈ (es.foldl aggStep st).year_total_ms.map Prod.fst
      ↔ y ∈ st.year_total_ms.map Prod.fst ∨ ∃ e ∈ es, e.year = y := by
  induction es generalizing st with
  | nil => simp
  | cons e rest ih =>
    rw [List.foldl_cons, ih]
    show y ∈ (bumpA st.year_total_ms e.year e.duration_ms).map Prod.fst ∨ _ ↔ _
    rw [mem_keys_bumpA]
    simp only [List.mem_cons]
    constructor
    · rintro ((h | h) | ⟨e2, he2, hy⟩)
      · exact Or.inl h
      · exact Or.inr ⟨e, Or.inl rfl, h.symm⟩
      · exact Or.inr ⟨e2, Or.inr he2, hy⟩
    · rintro (h | ⟨e2, (rfl | he2), hy⟩)
      · exact Or.inl (Or.inl h)
      · exact Or.inl (Or.inr hy.symm)
      · exact Or.inr ⟨e2, he2, hy⟩

/-! ### Claim theorem: aggregation invariant (C1) -/

/-- C1: after aggregating any sequence of canonical events, each year's
`total_duration_ms` equals the exact sum of the durations of that year's
events, equals the sum of the year's `artist_totals` values, equals the
sum of the year's `track_totals` values, `stream_count` equals the number
of that year's events, and a year is present in the aggregates exactly
when one of its events was processed. -/
theorem C1_year_totals_invariant (es : List CanonicalEvent) (y : Nat) :
    getA 0 (aggregate es).year_total_ms y = sumMs (es.filter (fun e => e.year == y))
    ∧ getA 0 (aggregate es).year_total_ms y = sumVals (getA [] (aggregate es).artist_ms y)
    ∧ getA 0 (aggregate es).year_total_ms y = sumVals (getA [] (aggregate es).track_ms y)
    ∧ getA 0 (aggregate es).year_streams y
        = ((es.filter (fun e => e.year == y)).length : Int)
    ∧ (y ∈ (aggregate es).year_total_ms.map Prod.fst ↔ ∃ e ∈ es, e.year = y) := by
  have h1 := total_foldl es emptyAgg y
  have h2 := artistSum_foldl es emptyAgg y
  have h3 := trackSum_foldl es emptyAgg y
  have h4 := streams_foldl es emptyAgg y
  have h5 := year_mem_foldl es emptyAgg y
  rw [show emptyAgg.year_total_ms = [] from rfl] at h1 h5
  rw [show emptyAgg.artist_ms = [] from rfl] at h2
  rw [show emptyAgg.track_ms = [] from rfl] at h3
  rw [show emptyAgg.year_streams = [] from rfl] at h4
  simp only [getA, sumVals_nil, List.map_nil, List.not_mem_nil, false_or,
    zero_add] at h1 h2 h3 h4 h5
  exact ⟨h1, h1.trans h2.symm, h1.trans h3.symm, h4, h5⟩

/-! ### Ranking (C3) -/

/-- Modelled from the spec's words: the total order "cumulative
duration_ms descending, ties broken by insertion (first-seen) order" on
insertion-index-annotated counter entries. -/
def specInsertionLE (a b : Nat × (String × Int)) : Bool :=
  if b.2.2 < a.2.2 then true
  else if a.2.2 = b.2.2 then decide (a.1 ≤ b.1)
  else false

/-- The spec-side ranking: annotate each entry with its insertion index,
sort by the spec's total order, and drop the indices. -/
def specRanking (m : Counter) : Counter :=
  ((m.enum).mergeSort specInsertionLE).map Prod.snd

theorem specInsertionLE_eq_enumLE :
    specInsertionLE = List.enumLE (fun a b : String × Int => decide (b.2 ≤ a.2)) := by
  funext a b
  simp only [specInsertionLE, List.enumLE]
  rcases lt_trichotomy a.2.2 b.2.2 with h | h | h
  · rw [if_neg (by omega), if_neg (by omega),
      if_neg (by simp; omega)]
  · rw [if_neg (by omega), if_pos h, if_pos (by simp; omega),
      if_pos (by simp; omega)]
  · rw [if_pos h, if_pos (by simp; omega), if_neg (by simp; omega)]

/-- The code's `most_common` (a stable sort by count descending) equals
the spec's ranking (count descending, ties by insertion index). -/
theorem most_common_eq_specRanking (m : Counter) : most_common m = specRanking m := by
  unfold most_common specRanking
  rw [specInsertionLE_eq_enumLE, List.mergeSort_enum]

/-- C3: for every year, the reported top-N artist and track listings are
the first N entries of the total order sorting entries by cumulative
duration descending with ties broken by insertion order; the listing is a
function of the aggregates, hence deterministic and reproducible for
identical input. -/
theorem C3_topN_ranking (st : AggState) (y : Nat) :
    (mkYearReport st y).topArtists = (specRanking (getA [] st.artist_ms y)).take TOP_N
    ∧ (mkYearReport st y).topSongs = (specRanking (getA [] st.track_ms y)).take TOP_N
    ∧ ∀ (m : Counter) (n : Nat), most_common_n m n = (specRanking m).take n := by
  refine ⟨?_, ?_, fun m n => ?_⟩ <;>
    simp [mkYearReport, most_common_n, most_common_eq_specRanking]

/-! ### Helper lemmas: per-key counters and permutation stability (C4) -/

theorem artist_ms_foldl (es : List CanonicalEvent) (st : AggState) :
    (es.foldl aggStep st).artist_ms
      = es.foldl (fun m e => bumpYearMap m e.year e.group_key e.duration_ms)
          st.artist_ms := by
  induction es generalizing st with
  | nil => rfl
  | cons e rest ih => rw [List.foldl_cons, List.foldl_cons, ih]; rfl

theorem track_ms_foldl (es : List CanonicalEvent) (st : AggState) :
    (es.foldl aggStep st).track_ms
      = es.foldl (fun m e => bumpYearMap m e.year e.item_key e.duration_ms)
          st.track_ms := by
  induction es generalizing st with
  | nil => rfl
  | cons e rest ih => rw [List.foldl_cons, List.foldl_cons, ih]; rfl

theorem bumpFold_cnt (f : CanonicalEvent → Nat) (g : CanonicalEvent → String)
    (es : List CanonicalEvent) (m0 : List (Nat × Counter)) (y : Nat) (k : String) :
    getA 0 (getA [] (es.foldl (fun m e => bumpYearMap m (f e) (g e) e.duration_ms) m0) y) k
      = getA 0 (getA [] m0 y) k
        + sumMs (es.filter (fun e => f e == y && g e == k)) := by
  induction es generalizing m0 with
  | nil => simp [sumMs]
  | cons e rest ih =>
    rw [List.foldl_cons, ih, List.filter_cons, getA_bumpYearMap]
    by_cases hy : y = f e
    · subst hy
      rw [if_pos rfl, getA_bumpA]
      by_cases hk : k = g e
      · subst hk
        simp only [beq_self_eq_true, Bool.and_self, if_pos rfl, if_true, sumMs,
          List.map_cons, List.sum_cons]
        omega
      · rw [if_neg hk]
        have hc : (f e == f e && g e == k) = false := by
          simp only [beq_self_eq_true, Bool.true_and, beq_eq_false_iff_ne, ne_eq]
          exact fun hh => hk hh.symm
        rw [hc]
        simp only [Bool.false_eq_true, if_false]
        omega
    · rw [if_neg hy]
      have hc : (f e == y && g e == k) = false := by
        have h1 : (f e == y) = false := by
          simp only [beq_eq_false_iff_ne, ne_eq]
          exact fun hh => hy hh.symm
        simp [h1]
      rw [hc]
      simp only [Bool.false_eq_true, if_false]

theorem bumpFold_mem (f : CanonicalEvent → Nat) (g : CanonicalEvent → String)
    (es : List CanonicalEvent) (m0 : List (Nat × Counter)) (y : Nat) (k : String) :
    k ∈ (getA [] (es.foldl (fun m e => bumpYearMap m (f e) (g e) e.duration_ms) m0) y).map Prod.fst
      ↔ k ∈ (getA [] m0 y).map Prod.fst ∨ ∃ e ∈ es, f e = y ∧ g e = k := by
  induction es generalizing m0 with
  | nil => simp
  | cons e rest ih =>
    rw [List.foldl_cons, ih, getA_bumpYearMap]
    by_cases hy : y = f e
    · subst hy
      rw [if_pos rfl, mem_keys_bumpA]
      constructor
      · rintro ((h | h) | ⟨e2, he2, hp⟩)
        · exact Or.inl h
        · exact Or.inr ⟨e, List.mem_cons_self _ _, rfl, h.symm⟩
        · exact Or.inr ⟨e2, List.mem_cons_of_mem _ he2, hp⟩
      · rintro (h | ⟨e2, he2, hfe, hge⟩)
        · exact Or.inl (Or.inl h)
        · rcases List.mem_cons.mp he2 with rfl | he2'
          · exact Or.inl (Or.inr hge.symm)
          · exact Or.inr ⟨e2, he2', hfe, hge⟩
    · rw [if_neg hy]
      constructor
      · rintro (h | ⟨e2, he2, hp⟩)
        · exact Or.inl h
        · exact Or.inr ⟨e2, List.mem_cons_of_mem _ he2, hp⟩
      · rintro (h | ⟨e2, he2, hfe, hge⟩)
        · exact Or.inl h
        · rcases List.mem_cons.mp he2 with rfl | he2'
          · exact absurd hfe.symm hy
          · exact Or.inr ⟨e2, he2', hfe, hge⟩

theorem keys_bumpA_eq {κ : Type} [DecidableEq κ] (m : List (κ × Int)) (k : κ) (v : Int) :
    (bumpA m k v).map Prod.fst
      = if k ∈ m.map Prod.fst then m.map Prod.fst else m.map Prod.fst ++ [k] := by
  induction m with
  | nil => simp [bumpA]
  | cons p rest ih =>
    simp only [bumpA]
    by_cases hp : p.1 = k
    · subst hp; simp
    · rw [if_neg hp]
      simp only [List.map_cons, ih, List.mem_cons]
      by_cases h2 : k ∈ rest.map Prod.fst
      · rw [if_pos h2, if_pos (Or.inr h2)]
      · have hno : ¬ (k = p.1 ∨ k ∈ rest.map Prod.fst) := by
          rintro (h | h)
          · exact hp h.symm
          · exact h2 h
        rw [if_neg h2, if_neg hno, List.cons_append]

theorem nodup_keys_bumpA {κ : Type} [DecidableEq κ] {m : List (κ × Int)} (k : κ)
    (v : Int) (h : (m.map Prod.fst).Nodup) :
    ((bumpA m k v).map Prod.fst).Nodup := by
  rw [keys_bumpA_eq]
  by_cases h2 : k ∈ m.map Prod.fst
  · rw [if_pos h2]; exact h
  · rw [if_neg h2]
    simp [List.nodup_append, h, h2]

/-- All per-year counters of a `defaultdict(Counter)` have distinct keys. -/
def innerNodup (m : List (Nat × Counter)) : Prop :=
  ∀ p ∈ m, ((p.2).map Prod.fst).Nodup

theorem innerNodup_bumpYearMap {m : List (Nat × Counter)} (y : Nat) (k : String)
    (v : Int) (h : innerNodup m) : innerNodup (bumpYearMap m y k v) := by
  induction m with
  | nil =>
    intro p hp
    simp only [bumpYearMap, List.mem_singleton] at hp
    subst hp
    exact nodup_keys_bumpA _ _ (by simp)
  | cons q rest ih =>
    intro p hp
    simp only [bumpYearMap] at hp
    by_cases hq : q.1 = y
    · rw [if_pos hq] at hp
      rcases List.mem_cons.mp hp with rfl | hp'
      · exact nodup_keys_bumpA _ _ (h q (List.mem_cons_self _ _))
      · exact h p (List.mem_cons_of_mem _ hp')
    · rw [if_neg hq] at hp
      rcases List.mem_cons.mp hp with rfl | hp'
      · exact h _ (List.mem_cons_self _ _)
      · exact ih (fun p2 hp2 => h p2 (List.mem_cons_of_mem _ hp2)) p hp'

theorem innerNodup_bumpFold (f : CanonicalEvent → Nat) (g : CanonicalEvent → String)
    (es : List CanonicalEvent) (m0 : List (Nat × Counter)) (h : innerNodup m0) :
    innerNodup (es.foldl (fun m e => bumpYearMap m (f e) (g e) e.duration_ms) m0) := by
  induction es generalizing m0 with
  | nil => exact h
  | cons e rest ih => exact ih _ (innerNodup_bumpYearMap _ _ _ h)

theorem getA_counter_mem (m : List (Nat × Counter)) (y : Nat) :
    getA [] m y = [] ∨ ∃ p ∈ m, getA [] m y = p.2 := by
  induction m with
  | nil => exact Or.inl rfl
  | cons p rest ih =>
    by_cases hp : p.1 = y
    · exact Or.inr ⟨p, List.mem_cons_self _ _, by simp [getA, hp]⟩
    · rcases ih with h | ⟨q, hq, h⟩
      · exact Or.inl (by simpa [getA, hp] using h)
      · exact Or.inr ⟨q, List.mem_cons_of_mem _ hq, by simpa [getA, hp] using h⟩

theorem counter_keys_nodup {m : List (Nat × Counter)} (h : innerNodup m) (y : Nat) :
    ((getA [] m y).map Prod.fst).Nodup := by
  rcases getA_counter_mem m y with he | ⟨p, hp, he⟩
  · rw [he]; exact List.nodup_nil
  · rw [he]; exact h p hp

theorem getA_eq_of_mem {κ : Type} [DecidableEq κ] {β : Type} {dflt : β}
    {m : List (κ × β)} {p : κ × β} (n : (m.map Prod.fst).Nodup) (hp : p ∈ m) :
    getA dflt m p.1 = p.2 := by
  induction m with
  | nil => cases hp
  | cons q rest ih =>
    rcases List.mem_cons.mp hp with rfl | hp'
    · simp [getA]
    · have hq : ¬ q.1 = p.1 := by
        intro hh
        exact (List.nodup_cons.mp n).1 (hh ▸ List.mem_map_of_mem Prod.fst hp')
      rw [getA, if_neg hq]
      exact ih (List.nodup_cons.mp n).2 hp'

/-- Two counters with distinct keys, the same key set and the same counts
are permutations of each other. -/
theorem counter_perm_of_lookup_eq {m1 m2 : Counter}
    (n1 : (m1.map Prod.fst).Nodup) (n2 : (m2.map Prod.fst).Nodup)
    (hmem : ∀ k, k ∈ m1.map Prod.fst ↔ k ∈ m2.map Prod.fst)
    (hval : ∀ k, getA 0 m1 k = getA 0 m2 k) : m1.Perm m2 := by
  refine (List.perm_ext_iff_of_nodup (List.Nodup.of_map _ n1)
    (List.Nodup.of_map _ n2)).mpr (fun p => ⟨fun hp => ?_, fun hp => ?_⟩)
  · have hk : p.1 ∈ m2.map Prod.fst := (hmem p.1).mp (List.mem_map_of_mem _ hp)
    obtain ⟨q, hq, hqk⟩ := List.mem_map.mp hk
    have h1 : getA 0 m1 p.1 = p.2 := getA_eq_of_mem n1 hp
    have h2 : getA 0 m2 q.1 = q.2 := getA_eq_of_mem n2 hq
    have hpq : p = q := by
      obtain ⟨k1, v1⟩ := p
      obtain ⟨k2, v2⟩ := q
      simp only at hqk h1 h2
      subst hqk
      have hv : getA 0 m2 k2 = v1 := (hval k2).symm.trans h1
      rw [h2] at hv
      simp [hv]
    rw [hpq]; exact hq
  · have hk : p.1 ∈ m1.map Prod.fst := (hmem p.1).mpr (List.mem_map_of_mem _ hp)
    obtain ⟨q, hq, hqk⟩ := List.mem_map.mp hk
    have h1 : getA 0 m2 p.1 = p.2 := getA_eq_of_mem n2 hp
    have h2 : getA 0 m1 q.1 = q.2 := getA_eq_of_mem n1 hq
    have hpq : p = q := by
      obtain ⟨k1, v1⟩ := p
      obtain ⟨k2, v2⟩ := q
      simp only at hqk h1 h2
      subst hqk
      have hv : getA 0 m1 k2 = v1 := (hval k2).trans h1
      rw [h2] at hv
      simp [hv]
    rw [hpq]; exact hq

theorem eq_of_pairwise_ne {l : List (String × Int)}
    (h : l.Pairwise (fun a b => a.2 ≠ b.2)) :
    ∀ a ∈ l, ∀ b ∈ l, a.2 = b.2 → a = b := by
  induction l with
  | nil => intro a ha; cases ha
  | cons x xs ih =>
    intro a ha b hb hv
    rcases List.mem_cons.mp ha with rfl | ha' <;> rcases List.mem_cons.mp hb with rfl | hb'
    · rfl
    · exact absurd hv ((List.pairwise_cons.mp h).1 b hb')
    · exact absurd hv.symm ((List.pairwise_cons.mp h).1 a ha')
    · exact ih (List.pairwise_cons.mp h).2 a ha' b hb' hv

theorem cntLE_trans : ∀ a b c : String × Int,
    decide (b.2 ≤ a.2) = true → decide (c.2 ≤ b.2) = true →
    decide (c.2 ≤ a.2) = true := by
  intro a b c h1 h2
  simp only [decide_eq_true_eq] at *
  omega

theorem cntLE_total : ∀ a b : String × Int,
    (decide (b.2 ≤ a.2) || decide (a.2 ≤ b.2)) = true := by
  intro a b
  simp only [Bool.or_eq_true, decide_eq_true_eq]
  omega

/-- Stable sorts of tied-free permuted counters agree. -/
theorem most_common_eq_of_perm {m1 m2 : Counter} (hperm : m1.Perm m2)
    (hd : ∀ a ∈ m1, ∀ b ∈ m1, a.2 = b.2 → a = b) :
    most_common m1 = most_common m2 := by
  unfold most_common
  apply @List.Perm.eq_of_sorted _ (fun a b : String × Int => b.2 ≤ a.2) _ _
  · intro a b ha hb hab hba
    have ha' : a ∈ m1 := List.mem_mergeSort.mp ha
    have hb' : b ∈ m1 := hperm.symm.subset (List.mem_mergeSort.mp hb)
    exact hd a ha' b hb' (le_antisymm hba hab)
  · exact (List.sorted_mergeSort cntLE_trans cntLE_total m1).imp
      (by intro a b h; simpa using h)
  · exact (List.sorted_mergeSort cntLE_trans cntLE_total m2).imp
      (by intro a b h; simpa using h)
  · exact (List.mergeSort_perm m1 _).trans (hperm.trans (List.mergeSort_perm m2 _).symm)

theorem artistCnt_agg (es : List CanonicalEvent) (y : Nat) (k : String) :
    getA 0 (getA [] (aggregate es).artist_ms y) k
      = sumMs (es.filter (fun e => e.year == y && e.group_key == k)) := by
  simp only [aggregate]
  rw [artist_ms_foldl]
  simpa [emptyAgg, getA] using bumpFold_cnt (fun e => e.year) (fun e => e.group_key) es [] y k

theorem trackCnt_agg (es : List CanonicalEvent) (y : Nat) (k : String) :
    getA 0 (getA [] (aggregate es).track_ms y) k
      = sumMs (es.filter (fun e => e.year == y && e.item_key == k)) := by
  simp only [aggregate]
  rw [track_ms_foldl]
  simpa [emptyAgg, getA] using bumpFold_cnt (fun e => e.year) (fun e => e.item_key) es [] y k

theorem artistMem_agg (es : List CanonicalEvent) (y : Nat) (k : String) :
    k ∈ (getA [] (aggregate es).artist_ms y).map Prod.fst
      ↔ ∃ e ∈ es, e.year = y ∧ e.group_key = k := by
  simp only [aggregate]
  rw [artist_ms_foldl]
  simpa [emptyAgg, getA] using bumpFold_mem (fun e => e.year) (fun e => e.group_key) es [] y k

theorem trackMem_agg (es : List CanonicalEvent) (y : Nat) (k : String) :
    k ∈ (getA [] (aggregate es).track_ms y).map Prod.fst
      ↔ ∃ e ∈ es, e.year = y ∧ e.item_key = k := by
  simp only [aggregate]
  rw [track_ms_foldl]
  simpa [emptyAgg, getA] using bumpFold_mem (fun e => e.year) (fun e => e.item_key) es [] y k

theorem artistNodup_agg (es : List CanonicalEvent) (y : Nat) :
    ((getA [] (aggregate es).artist_ms y).map Prod.fst).Nodup := by
  apply counter_keys_nodup
  simp only [aggregate]
  rw [artist_ms_foldl]
  exact innerNodup_bumpFold _ _ _ _ (fun p hp => by simp [emptyAgg] at hp)

theorem trackNodup_agg (es : List CanonicalEvent) (y : Nat) :
    ((getA [] (aggregate es).track_ms y).map Prod.fst).Nodup := by
  apply counter_keys_nodup
  simp only [aggregate]
  rw [track_ms_foldl]
  exact innerNodup_bumpFold _ _ _ _ (fun p hp => by simp [emptyAgg] at hp)

/-- The aggregation of `main` applied to a loaded record sequence. -/
def pipelineAgg (rs : List RawRecord) : AggState :=
  aggregate (rs.filterMap normalize_record)

/-- A two-element stable sort, by unfolding one `mergeSort` step. -/
theorem mergeSort_pair {α : Type} (le : α → α → Bool) (a b : α) :
    List.mergeSort [a, b] le = if le a b then [a, b] else [b, a] := by
  simp [List.mergeSort, List.splitInTwo, List.splitAt, List.splitAt.go, List.merge]

/-! ### Claim theorems: permutation stability (C4) -/

/-- C4 counterexample: two set-identical input sequences in permuted
order whose two artists tie on total duration produce different top-N
artist listings (the tie is broken by first-seen order, which the
permutation changes), refuting the claim as stated. -/
theorem C4_counterexample :
    (([[("ts", .str "2023-05-01T10:00:00Z"), ("ms_played", .num 1000),
        ("trackName", .str "T1"), ("artistName", .str "A1")],
       [("ts", .str "2023-05-01T10:00:00Z"), ("ms_played", .num 1000),
        ("trackName", .str "T2"), ("artistName", .str "A2")]] : List RawRecord).Perm
      [[("ts", .str "2023-05-01T10:00:00Z"), ("ms_played", .num 1000),
        ("trackName", .str "T2"), ("artistName", .str "A2")],
       [("ts", .str "2023-05-01T10:00:00Z"), ("ms_played", .num 1000),
        ("trackName", .str "T1"), ("artistName", .str "A1")]])
    ∧ (mkYearReport (pipelineAgg
        [[("ts", .str "2023-05-01T10:00:00Z"), ("ms_played", .num 1000),
          ("trackName", .str "T1"), ("artistName", .str "A1")],
         [("ts", .str "2023-05-01T10:00:00Z"), ("ms_played", .num 1000),
          ("trackName", .str "T2"), ("artistName", .str "A2")]]) 2023).topArtists
      ≠ (mkYearReport (pipelineAgg
        [[("ts", .str "2023-05-01T10:00:00Z"), ("ms_played", .num 1000),
          ("trackName", .str "T2"), ("artistName", .str "A2")],
         [("ts", .str "2023-05-01T10:00:00Z"), ("ms_played", .num 1000),
          ("trackName", .str "T1"), ("artistName", .str "A1")]]) 2023).topArtists := by
  constructor
  · exact List.Perm.swap _ _ []
  · have e1 : (mkYearReport (pipelineAgg
        [[("ts", .str "2023-05-01T10:00:00Z"), ("ms_played", .num 1000),
          ("trackName", .str "T1"), ("artistName", .str "A1")],
         [("ts", .str "2023-05-01T10:00:00Z"), ("ms_played", .num 1000),
          ("trackName", .str "T2"), ("artistName", .str "A2")]]) 2023).topArtists
        = (List.mergeSort [("A1", (1000 : Int)), ("A2", 1000)]
            (fun a b => decide (b.2 ≤ a.2))).take TOP_N := rfl
    have e2 : (mkYearReport (pipelineAgg
        [[("ts", .str "2023-05-01T10:00:00Z"), ("ms_played", .num 1000),
          ("trackName", .str "T2"), ("artistName", .str "A2")],
         [("ts", .str "2023-05-01T10:00:00Z"), ("ms_played", .num 1000),
          ("trackName", .str "T1"), ("artistName", .str "A1")]]) 2023).topArtists
        = (List.mergeSort [("A2", (1000 : Int)), ("A1", 1000)]
            (fun a b => decide (b.2 ≤ a.2))).take TOP_N := rfl
    rw [e1, e2, mergeSort_pair, mergeSort_pair]
    decide

/-- C4 (amended): permuted set-identical inputs yield identical per-year
totals, stream counts and per-key artist/track cumulative durations; the
top-N listings also coincide whenever the year's cumulative durations are
pairwise distinct (on a duration tie, the order may follow each run's own
first-seen order — see the counterexample). -/
theorem C4_permutation_stability (rs1 rs2 : List RawRecord) (y : Nat)
    (hperm : rs1.Perm rs2) :
    getA 0 (pipelineAgg rs1).year_total_ms y = getA 0 (pipelineAgg rs2).year_total_ms y
    ∧ getA 0 (pipelineAgg rs1).year_streams y = getA 0 (pipelineAgg rs2).year_streams y
    ∧ (∀ k, getA 0 (getA [] (pipelineAgg rs1).artist_ms y) k
          = getA 0 (getA [] (pipelineAgg rs2).artist_ms y) k)
    ∧ (∀ k, getA 0 (getA [] (pipelineAgg rs1).track_ms y) k
          = getA 0 (getA [] (pipelineAgg rs2).track_ms y) k)
    ∧ ((getA [] (pipelineAgg rs1).artist_ms y).Pairwise (fun a b => a.2 ≠ b.2) →
        (mkYearReport (pipelineAgg rs1) y).topArtists
          = (mkYearReport (pipelineAgg rs2) y).topArtists)
    ∧ ((getA [] (pipelineAgg rs1).track_ms y).Pairwise (fun a b => a.2 ≠ b.2) →
        (mkYearReport (pipelineAgg rs1) y).topSongs
          = (mkYearReport (pipelineAgg rs2) y).topSongs) := by
  have hev : (rs1.filterMap normalize_record).Perm (rs2.filterMap normalize_record) :=
    hperm.filterMap _
  have hsum : ∀ p : CanonicalEvent → Bool,
      sumMs ((rs1.filterMap normalize_record).filter p)
        = sumMs ((rs2.filterMap normalize_record).filter p) :=
    fun p => List.Perm.sum_eq (List.Perm.map _ (List.Perm.filter p hev))
  have hcntA : ∀ k, getA 0 (getA [] (pipelineAgg rs1).artist_ms y) k
      = getA 0 (getA [] (pipelineAgg rs2).artist_ms y) k := by
    intro k
    simp only [pipelineAgg]
    rw [artistCnt_agg, artistCnt_agg]
    exact hsum _
  have hcntT : ∀ k, getA 0 (getA [] (pipelineAgg rs1).track_ms y) k
      = getA 0 (getA [] (pipelineAgg rs2).track_ms y) k := by
    intro k
    simp only [pipelineAgg]
    rw [trackCnt_agg, trackCnt_agg]
    exact hsum _
  have hpermA : (getA [] (pipelineAgg rs1).artist_ms y).Perm
      (getA [] (pipelineAgg rs2).artist_ms y) := by
    refine counter_perm_of_lookup_eq ?_ ?_ ?_ hcntA
    · exact artistNodup_agg _ y
    · exact artistNodup_agg _ y
    · intro k
      simp only [pipelineAgg]
      rw [artistMem_agg, artistMem_agg]
      exact ⟨fun ⟨e, he, hp⟩ => ⟨e, hev.subset he, hp⟩,
        fun ⟨e, he, hp⟩ => ⟨e, hev.symm.subset he, hp⟩⟩
  have hpermT : (getA [] (pipelineAgg rs1).track_ms y).Perm
      (getA [] (pipelineAgg rs2).track_ms y) := by
    refine counter_perm_of_lookup_eq ?_ ?_ ?_ hcntT
    · exact trackNodup_agg _ y
    · exact trackNodup_agg _ y
    · intro k
      simp only [pipelineAgg]
      rw [trackMem_agg, trackMem_agg]
      exact ⟨fun ⟨e, he, hp⟩ => ⟨e, hev.subset he, hp⟩,
        fun ⟨e, he, hp⟩ => ⟨e, hev.symm.subset he, hp⟩⟩
  refine ⟨?_, ?_, hcntA, hcntT, ?_, ?_⟩
  · simp only [pipelineAgg, aggregate]
    rw [total_foldl, total_foldl]
    simp only [emptyAgg, getA]
    exact congrArg _ (hsum _)
  · simp only [pipelineAgg, aggregate]
    rw [streams_foldl, streams_foldl]
    simp only [emptyAgg, getA]
    exact congrArg _ (congrArg _ ((hev.filter _).length_eq))
  · intro hdist
    simp only [mkYearReport, most_common_n]
    rw [most_common_eq_of_perm hpermA (eq_of_pairwise_ne hdist)]
  · intro hdist
    simp only [mkYearReport, most_common_n]
    rw [most_common_eq_of_perm hpermT (eq_of_pairwise_ne hdist)]

/-- C4 witness: the amended theorem applied to a concrete permuted pair
of inputs whose artist (and track) totals are distinct, yielding equal
top-N listings. -/
theorem C4_permutation_stability_witness :
    (([[("ts", .str "2023-05-01T10:00:00Z"), ("ms_played", .num 1000),
        ("trackName", .str "T1"), ("artistName", .str "A1")],
       [("ts", .str "2023-05-01T10:00:00Z"), ("ms_played", .num 2000),
        ("trackName", .str "T2"), ("artistName", .str "A2")]] : List RawRecord).Perm
      [[("ts", .str "2023-05-01T10:00:00Z"), ("ms_played", .num 2000),
        ("trackName", .str "T2"), ("artistName", .str "A2")],
       [("ts", .str "2023-05-01T10:00:00Z"), ("ms_played", .num 1000),
        ("trackName", .str "T1"), ("artistName", .str "A1")]])
    ∧ (mkYearReport (pipelineAgg
        [[("ts", .str "2023-05-01T10:00:00Z"), ("ms_played", .num 1000),
          ("trackName", .str "T1"), ("artistName", .str "A1")],
         [("ts", .str "2023-05-01T10:00:00Z"), ("ms_played", .num 2000),
          ("trackName", .str "T2"), ("artistName", .str "A2")]]) 2023).topArtists
      = (mkYearReport (pipelineAgg
        [[("ts", .str "2023-05-01T10:00:00Z"), ("ms_played", .num 2000),
          ("trackName", .str "T2"), ("artistName", .str "A2")],
         [("ts", .str "2023-05-01T10:00:00Z"), ("ms_played", .num 1000),
          ("trackName", .str "T1"), ("artistName", .str "A1")]]) 2023).topArtists := by
  refine ⟨List.Perm.swap _ _ [], ?_⟩
  exact (C4_permutation_stability _ _ 2023 (List.Perm.swap _ _ [])).2.2.2.2.1 (by decide)

/-! ### Helper lemmas: loader -/

theorem sortedPaths_eq_nil {folder : List FSFile} :
    sortedPaths folder = [] ↔ folder = [] := by
  constructor
  · intro h
    have hlen : ((folder.map FSFile.path).dedup).length = 0 := by
      simpa [List.length_mergeSort, sortedPaths] using congrArg List.length h
    have hd : (folder.map FSFile.path).dedup = [] := List.length_eq_zero.mp hlen
    have hm : folder.map FSFile.path = [] := (List.dedup_eq_nil _).mp hd
    exact List.map_eq_nil_iff.mp hm
  · rintro rfl
    simp [sortedPaths]

/-- The loader's successful result: all files' records concatenated in
deduplicated sorted path order. -/
def allRecords (folder : List FSFile) : List RawRecord :=
  List.flatten ((sortedPaths folder).map (fun p => extractRecords (fileContent folder p)))

theorem load_ok {folder : List FSFile} (h : folder ≠ []) :
    load_streaming_history folder = .ok (allRecords folder) := by
  simp only [load_streaming_history, allRecords]
  rw [if_neg (fun hh => h (sortedPaths_eq_nil.mp (List.isEmpty_iff.mp hh)))]

theorem allRecords_singleton (f : FSFile) :
    allRecords [f] = extractRecords f.content := by
  have hp : sortedPaths [f] = [f.path] := by
    simp [sortedPaths, List.dedup_cons_of_not_mem]
  simp [allRecords, hp, fileContent]

theorem pathLE_trans : ∀ a b c : String,
    decide (a ≤ b) = true → decide (b ≤ c) = true → decide (a ≤ c) = true := by
  intro a b c h1 h2
  simp only [decide_eq_true_eq] at *
  exact le_trans h1 h2

theorem pathLE_total : ∀ a b : String,
    (decide (a ≤ b) || decide (b ≤ a)) = true := by
  intro a b
  simp only [Bool.or_eq_true, decide_eq_true_eq]
  exact le_total a b

/-! ### Claim theorems: loader and exit behavior (C7, C8, C10) -/

/-- C7: `main` hits the fatal no-input error exactly when the folder
holds no candidate file; with files present but zero records normalizing,
it returns the graceful no-usable-records outcome, which by construction
carries no per-year output and no written files. -/
theorem C7_exit_behavior :
    (∀ folder : List FSFile, (∃ msg, main_model folder = .noInput msg) ↔ folder = [])
    ∧ (∀ folder : List FSFile, folder ≠ [] →
        (allRecords folder).filterMap normalize_record = [] →
        main_model folder = .noUsable) := by
  have h2 : ∀ folder : List FSFile, folder ≠ [] →
      (allRecords folder).filterMap normalize_record = [] →
      main_model folder = .noUsable := by
    intro folder hne hz
    simp [main_model, load_ok hne, hz]
  refine ⟨?_, h2⟩
  intro folder
  constructor
  · rintro ⟨msg, hm⟩
    by_contra hne
    simp only [main_model, load_ok hne] at hm
    by_cases hz : ((allRecords folder).filterMap normalize_record).length = 0
    · rw [if_pos hz] at hm
      exact MainOutcome.noConfusion hm
    · rw [if_neg hz] at hm
      exact MainOutcome.noConfusion hm
  · rintro rfl
    exact ⟨"No .json files found in " ++ DATA_FOLDER ++ ".",
      by simp [main_model, load_streaming_history, sortedPaths]⟩

/-- C7 witness: a folder with one file whose only record has an
unparsable timestamp reaches the graceful no-usable-records outcome. -/
theorem C7_exit_behavior_witness :
    ([⟨"a.json", some (.arr [.obj [("ts", .str "nope")]])⟩] : List FSFile) ≠ []
    ∧ (allRecords [⟨"a.json", some (.arr [.obj [("ts", .str "nope")]])⟩]).filterMap
        normalize_record = []
    ∧ main_model [⟨"a.json", some (.arr [.obj [("ts", .str "nope")]])⟩] = .noUsable := by
  have hz : (allRecords
      [(⟨"a.json", some (.arr [.obj [("ts", .str "nope")]])⟩ : FSFile)]).filterMap
      normalize_record = [] := by
    rw [allRecords_singleton]
    rfl
  exact ⟨by simp, hz, C7_exit_behavior.2 _ (by simp) hz⟩

/-- C8: the loader's output is the concatenation, over deduplicated
sorted candidate paths, of each file's records, where a decode failure
contributes nothing, a bare list contributes its object elements, an
object wrapping a list under `"history"` contributes the wrapped list's
object elements, and non-object elements are dropped silently. -/
theorem C8_loader_output :
    (∀ folder : List FSFile, folder ≠ [] →
      load_streaming_history folder
        = .ok (List.flatten ((sortedPaths folder).map
            (fun p => extractRecords (fileContent folder p)))))
    ∧ (∀ folder : List FSFile, (sortedPaths folder).Pairwise (fun a b => a ≤ b))
    ∧ (∀ folder : List FSFile, (sortedPaths folder).Nodup)
    ∧ (∀ (folder : List FSFile) (p : String),
        p ∈ sortedPaths folder ↔ p ∈ folder.map FSFile.path)
    ∧ extractRecords none = []
    ∧ (∀ l : List Json, extractRecords (some (.arr l)) = l.filterMap asObj)
    ∧ (∀ (members : List (String × Json)) (l : List Json),
        dictLookup members "history" = some (.arr l) →
        extractRecords (some (.obj members)) = l.filterMap asObj) := by
  refine ⟨fun folder h => load_ok h, fun folder => ?_, fun folder => ?_,
    fun folder p => ?_, rfl, fun l => rfl, fun members l h => ?_⟩
  · exact (List.sorted_mergeSort pathLE_trans pathLE_total _).imp
      (by intro a b hh; simpa using hh)
  · exact ((List.mergeSort_perm _ _).nodup_iff).mpr (List.nodup_dedup _)
  · unfold sortedPaths
    rw [List.mem_mergeSort, List.mem_dedup]
  · simp [extractRecords, h]

/-- C8 witness: a wrapped-object file and a bare-list file (with one
non-object element) both contribute their records, in sorted path order. -/
theorem C8_loader_output_witness :
    load_streaming_history
      [⟨"b.json", some (.arr [.obj [("a", .num 1)], .num 7])⟩,
       ⟨"a.json", some (.obj [("history", .arr [.obj [("b", .num 2)]])])⟩]
      = .ok (List.flatten ((sortedPaths
          [⟨"b.json", some (.arr [.obj [("a", .num 1)], .num 7])⟩,
           ⟨"a.json", some (.obj [("history", .arr [.obj [("b", .num 2)]])])⟩]).map
          (fun p => extractRecords (fileContent
            [⟨"b.json", some (.arr [.obj [("a", .num 1)], .num 7])⟩,
             ⟨"a.json", some (.obj [("history", .arr [.obj [("b", .num 2)]])])⟩] p))))
    ∧ extractRecords (some (.obj [("history", .arr [.obj [("b", .num 2)]])]))
        = ([.obj [("b", .num 2)]] : List Json).filterMap asObj :=
  ⟨C8_loader_output.1 _ (by simp), C8_loader_output.2.2.2.2.2.2 _ _ rfl⟩

/-- C10: a decoded object without a member named exactly `"history"`
holding a list contributes zero records, and the loader still succeeds
(no error is raised) on any non-empty folder. -/
theorem C10_unrecognized_wrapper :
    (∀ members : List (String × Json),
      (∀ l : List Json, dictLookup members "history" ≠ some (.arr l)) →
      extractRecords (some (.obj members)) = [])
    ∧ (∀ folder : List FSFile, folder ≠ [] →
        load_streaming_history folder = .ok (allRecords folder)) := by
  constructor
  · intro members h
    cases hd : dictLookup members "history" with
    | none => simp [extractRecords, hd]
    | some v =>
      cases v with
      | arr l => exact absurd hd (h l)
      | null => simp [extractRecords, hd]
      | bool b => simp [extractRecords, hd]
      | num n => simp [extractRecords, hd]
      | str s => simp [extractRecords, hd]
      | obj o => simp [extractRecords, hd]
  · exact fun folder h => load_ok h

/-- C10 witness: an object whose keys are `"History"` (wrong case),
`"items"`, and a non-list `"history"` contributes zero records; a folder
whose only file fails to wrap still loads without error. -/
theorem C10_unrecognized_wrapper_witness :
    extractRecords (some (.obj
      [("History", .arr [.obj []]), ("items", .arr [.obj []]), ("history", .str "x")])) = []
    ∧ load_streaming_history [⟨"a.json", some (.str "junk")⟩]
        = .ok (allRecords [⟨"a.json", some (.str "junk")⟩]) :=
  ⟨C10_unrecognized_wrapper.1 _ (fun l => by simp [dictLookup]),
   C10_unrecognized_wrapper.2 _ (by simp)⟩

end SpotifyData
